import Mathlib

/-!
Verification of the fleet-tracker location ingestion and geofence
evaluation core.  The embedded code comes from the repository's SQL layer:

* `src/unnamed/part_014` — location-service schema: `current_locations`,
  `geofences`, `geofence_violations`, the `update_current_location`
  trigger function and `check_geofence_violations`;
* `src/database/init/02_functions.sql` — `calculate_speed`,
  `is_valid_coordinates`;
* `src/unnamed/part_016` — notification-service schema: the `alerts` table.

PostGIS geometry calls (`ST_Within` on a point against a polygon) are
embedded as an executable point-in-polygon test over exact rational
coordinates, following the documented PostGIS/GEOS semantics: the
location of a point relative to a polygon is interior, boundary or
exterior, and `ST_Within` holds exactly when the point lies in the
interior (points on the boundary ring are *not* within).

Parts of the pipeline that live in the repository's location-service
application code (the MQTT consumer that validates reports and invokes
the SQL functions, and the periodic offline sweep) are not present under
`src/`; they are modelled from the specification and are marked
`Modelled from the spec:` in their doc comments.
-/

namespace FleetTracker

/-- Point in WGS84 coordinates; `x` is longitude, `y` is latitude.
Coordinates are exact rationals, modelling the SQL DOUBLE PRECISION /
DECIMAL values. -/
structure Point where
  x : ℚ
  y : ℚ
deriving DecidableEq, Repr

/-- Polygon boundary ring, listed as its vertices in order (the closing
repetition of the first vertex is implicit). -/
abbrev Ring := List Point

/-- Edges of a ring: consecutive vertex pairs, wrapping around. -/
def edgesOf : Ring → List (Point × Point)
  | [] => []
  | v :: vs => List.zip (v :: vs) (vs ++ [v])

/-- Orientation determinant of `p` against the directed segment `a → b`:
positive when `p` is strictly to the left, zero when collinear. -/
def crossProd (a b p : Point) : ℚ :=
  (b.x - a.x) * (p.y - a.y) - (b.y - a.y) * (p.x - a.x)

/-- Whether `p` lies on the closed segment from `a` to `b`. -/
def onSegment (p a b : Point) : Bool :=
  decide (crossProd a b p = 0 ∧ min a.x b.x ≤ p.x ∧ p.x ≤ max a.x b.x ∧
    min a.y b.y ≤ p.y ∧ p.y ≤ max a.y b.y)

/-- Whether the edge `a → b` crosses the horizontal ray extending from
`p` to the right (strictly), in the even-odd ray-crossing sense used by
the GEOS `RayCrossingCounter` underlying PostGIS `ST_Within`. -/
def edgeCrossesRay (p a b : Point) : Bool :=
  decide ((¬ ((p.y < a.y) ↔ (p.y < b.y))) ∧
    ((a.y < b.y ∧ 0 < crossProd a b p) ∨ (b.y < a.y ∧ crossProd a b p < 0)))

/-- Topological location of a point relative to a polygon. -/
inductive PtLocation where
  | interior
  | boundary
  | exterior
deriving DecidableEq, Repr

/-- Locate a point relative to a polygon ring: boundary when it lies on
some edge, otherwise interior exactly when a rightward ray crosses the
boundary an odd number of times. -/
def locate_point (p : Point) (ring : Ring) : PtLocation :=
  if (edgesOf ring).any (fun e => onSegment p e.1 e.2) then .boundary
  else if (edgesOf ring).countP (fun e => edgeCrossesRay p e.1 e.2) % 2 = 1 then .interior
  else .exterior

/-- Embedding of PostGIS `ST_Within(point, polygon)`: true exactly when
the point lies in the polygon's interior.  Per the PostGIS/GEOS
semantics a point on the boundary ring is not within the polygon. -/
def ST_Within (p : Point) (ring : Ring) : Bool :=
  locate_point p ring == .interior

/-- Row of the `geofences` table (src/unnamed/part_014, lines 51-67),
restricted to the columns the embedded functions read. -/
structure Geofence where
  id : ℕ
  boundary : Ring
  gtype : String
  is_active : Bool
  alert_on_entry : Bool
  alert_on_exit : Bool
  max_speed : Option ℚ
deriving DecidableEq, Repr

/-- Row of the `geofence_violations` table (src/unnamed/part_014,
lines 70-85), restricted to the columns `check_geofence_violations`
inserts. -/
structure GeofenceViolation where
  vehicle_id : ℕ
  geofence_id : ℕ
  violation_type : String
  position : Point
deriving DecidableEq, Repr

/-- Body of the `FOR geofence_record IN ... LOOP` of
`check_geofence_violations` (src/unnamed/part_014, lines 282-306) for a
single geofence: when a previous location exists, compare
`is_inside := ST_Within(location_point, boundary)` against
`was_inside := ST_Within(prev_location, boundary)` and insert an
`entry` or `exit` violation accordingly. -/
def violations_for_geofence (vehicle_uuid : ℕ) (location_point : Point)
    (prev_location : Option Point) (g : Geofence) : List GeofenceViolation :=
  match prev_location with
  | none => []
  | some prev =>
    (if ST_Within location_point g.boundary && !ST_Within prev g.boundary
        && g.alert_on_entry then
      [⟨vehicle_uuid, g.id, "entry", location_point⟩] else []) ++
    (if !ST_Within location_point g.boundary && ST_Within prev g.boundary
        && g.alert_on_exit then
      [⟨vehicle_uuid, g.id, "exit", location_point⟩] else [])

/-- Embedding of `check_geofence_violations(vehicle_uuid, location_point)`
(src/unnamed/part_014, lines 263-309).  The previous location fetched
from `current_locations` is passed as `prev_location`; the loop runs
over the active geofences and collects the inserted violation rows. -/
def check_geofence_violations (vehicle_uuid : ℕ) (location_point : Point)
    (prev_location : Option Point) : List Geofence → List GeofenceViolation
  | [] => []
  | g :: gs =>
    (if g.is_active then violations_for_geofence vehicle_uuid location_point prev_location g
     else []) ++
    check_geofence_violations vehicle_uuid location_point prev_location gs

/-- Row of the `current_locations` table (src/unnamed/part_014,
lines 37-48), restricted to the columns the trigger writes. -/
structure CurrentLocation where
  position : Point
  speed : Option ℚ
  heading : Option ℤ
  last_update : ℚ
  is_online : Bool
  signal_quality : ℤ
deriving DecidableEq, Repr

/-- Row inserted into the `locations` table (src/unnamed/part_014,
lines 13-34), restricted to the columns the trigger reads; `recorded_at`
is a timestamp in seconds. -/
structure LocationRow where
  vehicle_id : ℕ
  position : Point
  speed : Option ℚ
  heading : Option ℤ
  satellites : Option ℤ
  recorded_at : ℚ
deriving DecidableEq, Repr

/-- The `CASE` expression computing `signal_quality` from
`NEW.satellites` in `update_current_location` (src/unnamed/part_014,
lines 235-240); a NULL satellite count falls through to the `ELSE`
branch. -/
def signal_quality_case (satellites : Option ℤ) : ℤ :=
  match satellites with
  | some n => if 8 ≤ n then 95 else if 6 ≤ n then 80 else if 4 ≤ n then 60 else 30
  | none => 30

/-- Embedding of the trigger function `update_current_location`
(src/unnamed/part_014, lines 215-254): the upsert into
`current_locations` overwrites every tracked column with the values of
the inserted `locations` row, unconditionally — there is no timestamp
comparison, and `is_online` is always set to TRUE. -/
def update_current_location (row : LocationRow) : CurrentLocation :=
  { position := row.position
    speed := row.speed
    heading := row.heading
    last_update := row.recorded_at
    is_online := true
    signal_quality := signal_quality_case row.satellites }

/-- State of the `current_locations` table: one row per vehicle,
`vehicle_id` is the primary key. -/
abbrev CurrentLocations := List (ℕ × CurrentLocation)

/-- Lookup of a vehicle's `current_locations` row by primary key. -/
def lookup_current (st : CurrentLocations) (v : ℕ) : Option CurrentLocation :=
  (st.find? (fun e => e.1 == v)).map (fun e => e.2)

/-- The `INSERT ... ON CONFLICT (vehicle_id) DO UPDATE` of
`update_current_location`: replace the row in place if the key exists,
otherwise insert a fresh row. -/
def upsert_current (st : CurrentLocations) (v : ℕ) (cl : CurrentLocation) :
    CurrentLocations :=
  if st.any (fun e => e.1 == v) then
    st.map (fun e => if e.1 == v then (v, cl) else e)
  else (v, cl) :: st

/-- Embedding of `is_valid_coordinates(latitude, longitude)`
(src/database/init/02_functions.sql, lines 47-58): both range checks
are `BETWEEN`, hence inclusive. -/
def is_valid_coordinates (latitude longitude : ℚ) : Bool :=
  decide ((-90 ≤ latitude ∧ latitude ≤ 90) ∧ (-180 ≤ longitude ∧ longitude ≤ 180))

/-- Embedding of `calculate_speed(distance_meters, time_seconds)`
(src/database/init/02_functions.sql, lines 31-44): returns 0 when
`time_seconds <= 0`, otherwise converts m/s to km/h. -/
def calculate_speed (distance_meters : ℚ) (time_seconds : ℤ) : ℚ :=
  if time_seconds ≤ 0 then 0
  else (distance_meters / (time_seconds : ℚ)) * 3.6

/-- Outcome of validating one raw report. -/
inductive IngestResult where
  | accepted
  | rejected (reason : String)
deriving DecidableEq, Repr

/-- Modelled from the spec: the ReportValidator of the location-service
consumer is not under `src/`.  Per §4.1 it checks, in order,
(a) coordinate range — via the repository's `is_valid_coordinates` —
and (b) that `recordedAt` is not older than the last accepted report
for the vehicle beyond a configurable backward `jitter`. -/
def validate_report (jitter : ℚ) (st : CurrentLocations) (row : LocationRow) :
    IngestResult :=
  if !(is_valid_coordinates row.position.y row.position.x) then
    .rejected "out_of_range"
  else
    match lookup_current st row.vehicle_id with
    | none => .accepted
    | some cl =>
      if row.recorded_at < cl.last_update - jitter then .rejected "out_of_order"
      else .accepted

/-- Modelled from the spec: the consumer orchestration that evaluates an
accepted report is not under `src/`.  Per §2 and §4.3 the geofence
evaluation compares the previous position (the vehicle's
`current_locations` row before the update) with the new position —
so `check_geofence_violations` runs against the previous row, and then
the `update_current_location` trigger upserts the new row. -/
def process_report (geofences : List Geofence) (st : CurrentLocations)
    (row : LocationRow) : CurrentLocations × List GeofenceViolation :=
  let prev := (lookup_current st row.vehicle_id).map (fun cl => cl.position)
  let vs := check_geofence_violations row.vehicle_id row.position prev geofences
  (upsert_current st row.vehicle_id (update_current_location row), vs)

/-- Modelled from the spec: processing of a sequence of reports in
order, collecting all recorded violations. -/
def process_all (geofences : List Geofence) :
    CurrentLocations → List LocationRow → CurrentLocations × List GeofenceViolation
  | st, [] => (st, [])
  | st, row :: rows =>
    let r := process_report geofences st row
    let rest := process_all geofences r.1 rows
    (rest.1, r.2 ++ rest.2)

/-- Modelled from the spec: the full ingestion of one raw report —
validate, then (only if accepted) evaluate geofences and update the
current location; a rejected report leaves the state untouched. -/
def ingest_report (jitter : ℚ) (geofences : List Geofence) (st : CurrentLocations)
    (row : LocationRow) : CurrentLocations × List GeofenceViolation × IngestResult :=
  match validate_report jitter st row with
  | .accepted =>
    let r := process_report geofences st row
    (r.1, r.2, .accepted)
  | .rejected reason => (st, [], .rejected reason)

/-- Modelled from the spec: ingestion of a sequence of raw reports in
order. -/
def ingest_all (jitter : ℚ) (geofences : List Geofence) :
    CurrentLocations → List LocationRow → CurrentLocations × List GeofenceViolation
  | st, [] => (st, [])
  | st, row :: rows =>
    let r := ingest_report jitter geofences st row
    let rest := ingest_all jitter geofences r.1 rows
    (rest.1, r.2.1 ++ rest.2)

/-- Alert event published by the core (spec §3, `AlertEvent`). -/
structure AlertEvent where
  vehicle_id : ℕ
  type : String
deriving DecidableEq, Repr

/-- Modelled from the spec: the periodic `MarkOfflineSweep(now)` job of
§4.2 is not under `src/` (the schema only carries the `is_online`
column).  The sweep flips `is_online` to false for every vehicle whose
`last_update` is older than the threshold and emits a `device_offline`
alert only for vehicles making the online → offline transition. -/
def mark_offline_sweep (threshold now : ℚ) (st : CurrentLocations) :
    CurrentLocations × List AlertEvent :=
  (st.map (fun e =>
      if threshold < now - e.2.last_update then (e.1, { e.2 with is_online := false })
      else e),
   st.filterMap (fun e =>
      if e.2.is_online && decide (threshold < now - e.2.last_update) then
        some ⟨e.1, "device_offline"⟩
      else none))

/-- Row of the `alerts` table (src/unnamed/part_016, lines 14-43),
restricted to the identifying and NOT NULL columns plus `metadata`;
the schema has no `geofence_id` column — geofence context can only be
carried inside the `metadata` JSONB blob. -/
structure AlertRow where
  id : ℕ
  vehicle_id : ℕ
  type : String
  category : String
  title : String
  message : String
  metadata : String
deriving DecidableEq, Repr

/-- Uniqueness constraints the `alerts` schema places on an insert: the
only key is the primary key `id` (src/unnamed/part_016 declares no
UNIQUE constraint on the table beyond it). -/
def alerts_insert_ok (tbl : List AlertRow) (r : AlertRow) : Bool :=
  tbl.all (fun x => !(x.id == r.id))

/-- Number of `entry` violations recorded for a given geofence. -/
def entry_count (vs : List GeofenceViolation) (gid : ℕ) : ℕ :=
  vs.countP (fun w => w.geofence_id == gid && w.violation_type == "entry")

/-- Number of `exit` violations recorded for a given geofence. -/
def exit_count (vs : List GeofenceViolation) (gid : ℕ) : ℕ :=
  vs.countP (fun w => w.geofence_id == gid && w.violation_type == "exit")

/-- Report row carrying only a position, for stating sequence
properties where the other columns are irrelevant. -/
def mk_report (v : ℕ) (p : Point) : LocationRow :=
  ⟨v, p, none, none, none, 0⟩

/-- Concrete 4×4 square boundary ring used in witnesses. -/
def sq : Ring := [⟨0, 0⟩, ⟨4, 0⟩, ⟨4, 4⟩, ⟨0, 4⟩]

/-- Concrete active inclusion geofence alerting on entry and exit. -/
def gIncl : Geofence :=
  { id := 1, boundary := sq, gtype := "inclusion", is_active := true
    alert_on_entry := true, alert_on_exit := true, max_speed := none }

/-- Concrete active geofence carrying an in-zone speed limit of 50 km/h. -/
def gSpeed : Geofence :=
  { id := 2, boundary := sq, gtype := "inclusion", is_active := true
    alert_on_entry := true, alert_on_exit := true, max_speed := some 50 }

/-- Concrete report with latitude 95, out of range. -/
def rowBad : LocationRow :=
  { vehicle_id := 1, position := ⟨106, 95⟩, speed := some 40, heading := none
    satellites := some 7, recorded_at := 10 }

/-- Concrete alert row for vehicle 7 referencing geofence 42 in its
metadata. -/
def aRow1 : AlertRow :=
  { id := 1, vehicle_id := 7, type := "geofence_violation", category := "safety"
    title := "Geofence Alert", message := "entered", metadata := "geofence:42" }

/-- Second alert row with the same dedup fingerprint as `aRow1` (same
vehicle, type and geofence metadata) but a fresh primary key. -/
def aRow2 : AlertRow :=
  { id := 2, vehicle_id := 7, type := "geofence_violation", category := "safety"
    title := "Geofence Alert", message := "entered", metadata := "geofence:42" }

/-- Concrete current-location row updated at time 100, online. -/
def clW : CurrentLocation :=
  { position := ⟨1, 1⟩, speed := none, heading := none, last_update := 100
    is_online := true, signal_quality := 30 }

/-- Concrete report recorded at time 90, strictly older than `clW`'s
last update beyond a 2-second jitter. -/
def rowOld : LocationRow :=
  { vehicle_id := 5, position := ⟨2, 2⟩, speed := none, heading := none
    satellites := none, recorded_at := 90 }

/-- Concrete report for vehicle 5 recorded at time 10. -/
def rowT1 : LocationRow :=
  { vehicle_id := 5, position := ⟨1, 1⟩, speed := none, heading := none
    satellites := none, recorded_at := 10 }

/-- Concrete report for vehicle 5 recorded at time 20. -/
def rowT2 : LocationRow :=
  { vehicle_id := 5, position := ⟨2, 2⟩, speed := none, heading := none
    satellites := none, recorded_at := 20 }

end FleetTracker

namespace FleetTracker

/-! Helper lemmas about the geofence evaluation. -/

theorem violations_for_geofence_none (u : ℕ) (q : Point) (g : Geofence) :
    violations_for_geofence u q none g = [] := rfl

theorem check_none (u : ℕ) (q : Point) :
    ∀ gs : List Geofence, check_geofence_violations u q none gs = [] := by
  intro gs
  induction gs with
  | nil => rfl
  | cons g gs ih =>
    rw [check_geofence_violations, violations_for_geofence_none, ih]
    simp

/-- C10: on a vehicle's first-ever report there is no previous
current-location record, and `check_geofence_violations` records no
violation for any geofence whatsoever — in particular no entry alert,
even when the first position lies inside an active geofence with
`alert_on_entry` set; equally, the pipeline emits nothing when the
vehicle has no `current_locations` row yet. -/
theorem first_report_emits_no_alerts :
    (∀ (u : ℕ) (q : Point) (gs : List Geofence),
      check_geofence_violations u q none gs = []) ∧
    (∀ (gs : List Geofence) (st : CurrentLocations) (row : LocationRow),
      lookup_current st row.vehicle_id = none → (process_report gs st row).2 = []) := by
  refine ⟨check_none, fun gs st row hl => ?_⟩
  simp [process_report, hl, check_none]

theorem first_report_emits_no_alerts_witness :
    (process_report [gIncl] [] (mk_report 1 ⟨1, 1⟩)).2 = [] :=
  first_report_emits_no_alerts.2 [gIncl] [] (mk_report 1 ⟨1, 1⟩) rfl

/-- C9: `calculate_speed` is total and never divides by zero — it
returns 0 for every non-positive elapsed time, `(d / t) * 3.6` for
positive time, and a non-negative speed whenever the distance is
non-negative. -/
theorem calculate_speed_total (d : ℚ) (t : ℤ) :
    (t ≤ 0 → calculate_speed d t = 0) ∧
    (0 < t → calculate_speed d t = d / (t : ℚ) * 3.6) ∧
    (0 ≤ d → 0 ≤ calculate_speed d t) := by
  refine ⟨fun h => by simp [calculate_speed, h],
    fun h => by rw [calculate_speed, if_neg (not_le.mpr h)],
    fun hd => ?_⟩
  by_cases h : t ≤ 0
  · simp [calculate_speed, h]
  · rw [calculate_speed, if_neg h]
    push_neg at h
    have ht : (0 : ℚ) < (t : ℚ) := by exact_mod_cast h
    have h36 : (0 : ℚ) ≤ 3.6 := by norm_num
    exact mul_nonneg (div_nonneg hd ht.le) h36

theorem calculate_speed_total_witness :
    calculate_speed 100 (-5) = 0 ∧
    calculate_speed 100 10 = 100 / ((10 : ℤ) : ℚ) * 3.6 ∧
    0 ≤ calculate_speed 100 10 :=
  ⟨(calculate_speed_total 100 (-5)).1 (by decide),
   (calculate_speed_total 100 10).2.1 (by decide),
   (calculate_speed_total 100 10).2.2 (by decide)⟩

end FleetTracker

namespace FleetTracker

/-- C3 counterexample: the point (0, 2) lies exactly on the boundary
ring of the 4×4 square geofence polygon, yet the inside test used by
`check_geofence_violations` classifies it as NOT inside — refuting the
claim that boundary points are treated as inside. -/
theorem boundary_point_not_inside_counterexample :
    locate_point ⟨0, 2⟩ sq = .boundary ∧ ST_Within ⟨0, 2⟩ sq = false := by
  constructor <;> with_unfolding_all rfl

/-- C3 (amended): for every geofence polygon ring and every point lying
exactly on the boundary, the inside test `ST_Within` classifies the
point as NOT inside (open-region semantics), so a report exactly on the
boundary counts as 'outside' for entry/exit transition decisions. -/
theorem boundary_point_classified_outside (p : Point) (ring : Ring)
    (h : locate_point p ring = .boundary) : ST_Within p ring = false := by
  rw [ST_Within, h]
  rfl

theorem boundary_point_classified_outside_witness :
    ST_Within ⟨0, 2⟩ sq = false :=
  boundary_point_classified_outside ⟨0, 2⟩ sq (by with_unfolding_all rfl)

/-- C5: `is_valid_coordinates` accepts exactly the coordinates with
latitude in [-90, 90] and longitude in [-180, 180], both inclusive; a
report with latitude 95 fails the validator, is rejected as out of
range by the ingestion step, and leaves the vehicle state unchanged
with no alert emitted. -/
theorem coordinate_validation_range (jitter : ℚ) (gs : List Geofence) :
    (∀ lat lon : ℚ, is_valid_coordinates lat lon = true ↔
      ((-90 ≤ lat ∧ lat ≤ 90) ∧ (-180 ≤ lon ∧ lon ≤ 180))) ∧
    (∀ (st : CurrentLocations) (row : LocationRow), row.position.y = 95 →
      is_valid_coordinates row.position.y row.position.x = false ∧
      ingest_report jitter gs st row = (st, [], .rejected "out_of_range")) := by
  refine ⟨fun lat lon => by simp [is_valid_coordinates], fun st row h95 => ?_⟩
  have hf : is_valid_coordinates row.position.y row.position.x = false := by
    rw [h95]
    apply decide_eq_false
    rintro ⟨⟨-, h⟩, -⟩
    norm_num at h
  exact ⟨hf, by simp [ingest_report, validate_report, hf]⟩

theorem coordinate_validation_range_witness :
    is_valid_coordinates 10 106 = true ∧
    is_valid_coordinates rowBad.position.y rowBad.position.x = false ∧
    ingest_report 2 [gIncl] [] rowBad = ([], [], .rejected "out_of_range") :=
  ⟨((coordinate_validation_range 2 [gIncl]).1 10 106).mpr (by norm_num),
   ((coordinate_validation_range 2 [gIncl]).2 [] rowBad rfl).1,
   ((coordinate_validation_range 2 [gIncl]).2 [] rowBad rfl).2⟩

/-- C6 (code bug): a report whose previous and new positions both lie
inside the active geofence `gSpeed` carrying `max_speed = 50` records
NO violation at all — `check_geofence_violations` never reads
`max_speed` (or any speed: the function does not even take a speed
argument), although the `geofence_violations.violation_type` column
documents 'speed_violation' as a violation type and `geofences.max_speed`
is documented as the speed limit within the geofence. -/
theorem speed_in_zone_never_recorded :
    gSpeed.max_speed = some 50 ∧ gSpeed.is_active = true ∧
    ST_Within ⟨1, 1⟩ gSpeed.boundary = true ∧
    ST_Within ⟨2, 2⟩ gSpeed.boundary = true ∧
    check_geofence_violations 1 ⟨2, 2⟩ (some ⟨1, 1⟩) [gSpeed] = [] := by
  refine ⟨rfl, rfl, ?_, ?_, ?_⟩ <;> with_unfolding_all rfl

/-- C8 counterexample: two alert rows with the same dedup fingerprint
(same vehicle, same type, same geofence reference in metadata) but
distinct primary keys are both accepted by the `alerts` table's
constraints — the schema enforces uniqueness only on `id`. -/
theorem alerts_duplicate_fingerprint_stored_counterexample :
    aRow1.vehicle_id = aRow2.vehicle_id ∧ aRow1.type = aRow2.type ∧
    aRow1.metadata = aRow2.metadata ∧
    alerts_insert_ok [] aRow1 = true ∧ alerts_insert_ok [aRow1] aRow2 = true :=
  ⟨rfl, rfl, rfl, rfl, rfl⟩

/-- C8 (amended): the persisted `alerts` table is append-only keyed by
`id`, but it carries NO unique constraint on the alert dedup
fingerprint — the schema has no `geofence_id` column and the only
uniqueness the table enforces on an insert is that of the primary key,
so rows duplicating a (vehicleId, type, geofence) fingerprint can all
be stored. -/
theorem alerts_unique_only_on_id (tbl : List AlertRow) (r : AlertRow) :
    alerts_insert_ok tbl r = true ↔ ∀ x ∈ tbl, x.id ≠ r.id := by
  simp [alerts_insert_ok]

theorem alerts_unique_only_on_id_witness :
    alerts_insert_ok [aRow1] aRow2 = true :=
  (alerts_unique_only_on_id [aRow1] aRow2).mpr (by decide)

end FleetTracker

namespace FleetTracker

theorem mem_violations_for_geofence_id (u : ℕ) (q : Point) (prev : Option Point)
    (g : Geofence) : ∀ w ∈ violations_for_geofence u q prev g, w.geofence_id = g.id := by
  intro w hw
  cases prev with
  | none => simp [violations_for_geofence] at hw
  | some p =>
    rw [violations_for_geofence] at hw
    rcases List.mem_append.mp hw with h | h <;>
      [skip; skip] <;> split at h <;> simp at h <;> subst h <;> rfl

theorem entry_count_vfg_other (u : ℕ) (q : Point) (prev : Option Point)
    (g : Geofence) (gid : ℕ) (hne : g.id ≠ gid) :
    entry_count (violations_for_geofence u q prev g) gid = 0 := by
  rw [entry_count, List.countP_eq_zero]
  intro w hw
  have := mem_violations_for_geofence_id u q prev g w hw
  simp [this, hne]

theorem exit_count_vfg_other (u : ℕ) (q : Point) (prev : Option Point)
    (g : Geofence) (gid : ℕ) (hne : g.id ≠ gid) :
    exit_count (violations_for_geofence u q prev g) gid = 0 := by
  rw [exit_count, List.countP_eq_zero]
  intro w hw
  have := mem_violations_for_geofence_id u q prev g w hw
  simp [this, hne]

theorem entry_count_vfg_self (u : ℕ) (q p : Point) (g : Geofence) :
    entry_count (violations_for_geofence u q (some p) g) g.id =
      if ST_Within q g.boundary = true ∧ ST_Within p g.boundary = false ∧
          g.alert_on_entry = true then 1 else 0 := by
  cases hq : ST_Within q g.boundary <;> cases hp : ST_Within p g.boundary <;>
    cases hE : g.alert_on_entry <;> cases hX : g.alert_on_exit <;>
    simp [violations_for_geofence, entry_count, hq, hp, hE, hX, List.countP_cons]

theorem exit_count_vfg_self (u : ℕ) (q p : Point) (g : Geofence) :
    exit_count (violations_for_geofence u q (some p) g) g.id =
      if ST_Within q g.boundary = false ∧ ST_Within p g.boundary = true ∧
          g.alert_on_exit = true then 1 else 0 := by
  cases hq : ST_Within q g.boundary <;> cases hp : ST_Within p g.boundary <;>
    cases hE : g.alert_on_entry <;> cases hX : g.alert_on_exit <;>
    simp [violations_for_geofence, exit_count, hq, hp, hE, hX, List.countP_cons]

end FleetTracker

namespace FleetTracker

theorem entry_count_check_not_mem (u : ℕ) (q : Point) (prev : Option Point) (gid : ℕ) :
    ∀ gs : List Geofence, (∀ h ∈ gs, h.id ≠ gid) →
      entry_count (check_geofence_violations u q prev gs) gid = 0 := by
  intro gs
  induction gs with
  | nil => intro _; rfl
  | cons g gs ih =>
    intro hall
    rw [check_geofence_violations, entry_count, List.countP_append]
    have h1 : entry_count (if g.is_active = true then
        violations_for_geofence u q prev g else []) gid = 0 := by
      split
      · exact entry_count_vfg_other u q prev g gid (hall g (List.mem_cons_self g gs))
      · rfl
    rw [entry_count] at h1
    have h2 := ih (fun h hh => hall h (List.mem_cons_of_mem g hh))
    rw [entry_count] at h2
    rw [h1, h2]

theorem exit_count_check_not_mem (u : ℕ) (q : Point) (prev : Option Point) (gid : ℕ) :
    ∀ gs : List Geofence, (∀ h ∈ gs, h.id ≠ gid) →
      exit_count (check_geofence_violations u q prev gs) gid = 0 := by
  intro gs
  induction gs with
  | nil => intro _; rfl
  | cons g gs ih =>
    intro hall
    rw [check_geofence_violations, exit_count, List.countP_append]
    have h1 : exit_count (if g.is_active = true then
        violations_for_geofence u q prev g else []) gid = 0 := by
      split
      · exact exit_count_vfg_other u q prev g gid (hall g (List.mem_cons_self g gs))
      · rfl
    rw [exit_count] at h1
    have h2 := ih (fun h hh => hall h (List.mem_cons_of_mem g hh))
    rw [exit_count] at h2
    rw [h1, h2]

/-- C1: for a vehicle with a previous recorded position and an active
geofence appearing (once) among the geofences, evaluating the report
records exactly one 'entry' violation for that (vehicle, geofence) when
the previous position was outside, the new one is inside and
`alert_on_entry` is set; symmetrically exactly one 'exit' violation
when the previous position was inside, the new one is outside and
`alert_on_exit` is set; and in every other (wasInside, isInside)
combination no entry and no exit violation is recorded for it. -/
theorem check_geofence_entry_exit_exact (u : ℕ) (p q : Point)
    (gs : List Geofence) (g : Geofence) (hmem : g ∈ gs)
    (hids : gs.Pairwise (fun a b => a.id ≠ b.id)) (hact : g.is_active = true) :
    entry_count (check_geofence_violations u q (some p) gs) g.id =
      (if ST_Within q g.boundary = true ∧ ST_Within p g.boundary = false ∧
          g.alert_on_entry = true then 1 else 0) ∧
    exit_count (check_geofence_violations u q (some p) gs) g.id =
      (if ST_Within q g.boundary = false ∧ ST_Within p g.boundary = true ∧
          g.alert_on_exit = true then 1 else 0) := by
  induction gs with
  | nil => simp at hmem
  | cons a gs ih =>
    rw [List.pairwise_cons] at hids
    rcases List.mem_cons.mp hmem with rfl | hmem'
    · have hrest : ∀ h ∈ gs, h.id ≠ g.id := fun h hh => (hids.1 h hh).symm
      constructor
      · rw [check_geofence_violations, entry_count, List.countP_append, hact, if_pos rfl]
        have h0 := entry_count_check_not_mem u q (some p) g.id gs hrest
        rw [entry_count] at h0
        rw [h0, Nat.add_zero]
        exact entry_count_vfg_self u q p g
      · rw [check_geofence_violations, exit_count, List.countP_append, hact, if_pos rfl]
        have h0 := exit_count_check_not_mem u q (some p) g.id gs hrest
        rw [exit_count] at h0
        rw [h0, Nat.add_zero]
        exact exit_count_vfg_self u q p g
    · have hne : a.id ≠ g.id := hids.1 g hmem'
      have ha_entry : entry_count (if a.is_active = true then
          violations_for_geofence u q (some p) a else []) g.id = 0 := by
        split
        · exact entry_count_vfg_other u q (some p) a g.id hne
        · rfl
      have ha_exit : exit_count (if a.is_active = true then
          violations_for_geofence u q (some p) a else []) g.id = 0 := by
        split
        · exact exit_count_vfg_other u q (some p) a g.id hne
        · rfl
      rw [entry_count] at ha_entry
      rw [exit_count] at ha_exit
      have hrec := ih hmem' hids.2
      constructor
      · rw [check_geofence_violations, entry_count, List.countP_append, ha_entry,
          Nat.zero_add]
        exact hrec.1
      · rw [check_geofence_violations, exit_count, List.countP_append, ha_exit,
          Nat.zero_add]
        exact hrec.2

theorem check_geofence_entry_exit_exact_witness :
    entry_count (check_geofence_violations 7 ⟨1, 1⟩ (some ⟨-1, 2⟩) [gIncl]) 1 = 1 ∧
    exit_count (check_geofence_violations 7 ⟨1, 1⟩ (some ⟨-1, 2⟩) [gIncl]) 1 = 0 := by
  have h := check_geofence_entry_exit_exact 7 ⟨-1, 2⟩ ⟨1, 1⟩ [gIncl] gIncl
    (List.mem_singleton.mpr rfl) (List.pairwise_singleton _ _) rfl
  refine ⟨h.1.trans ?_, h.2.trans ?_⟩ <;> with_unfolding_all rfl

end FleetTracker

namespace FleetTracker

theorem lookup_upsert_self (v : ℕ) (cl : CurrentLocation) :
    ∀ st : CurrentLocations, lookup_current (upsert_current st v cl) v = some cl
  | [] => by simp [upsert_current, lookup_current]
  | e :: st => by
    by_cases he : e.1 = v
    · simp [upsert_current, lookup_current, he]
    · by_cases ha : st.any (fun x => x.1 == v)
      · have ih := lookup_upsert_self v cl st
        simp [upsert_current, lookup_current, he, ha] at ih ⊢
        exact ih
      · simp [upsert_current, lookup_current, he, ha]

theorem check_singleton (u : ℕ) (q : Point) (prev : Option Point) (g : Geofence) :
    check_geofence_violations u q prev [g] =
      if g.is_active = true then violations_for_geofence u q prev g else [] := by
  rw [check_geofence_violations, check_geofence_violations]
  simp

theorem vfg_entry_case (u : ℕ) (q p : Point) (g : Geofence)
    (hq : ST_Within q g.boundary = true) (hp : ST_Within p g.boundary = false)
    (hE : g.alert_on_entry = true) :
    violations_for_geofence u q (some p) g = [⟨u, g.id, "entry", q⟩] := by
  rw [violations_for_geofence]
  simp [hq, hp, hE]

theorem vfg_exit_case (u : ℕ) (q p : Point) (g : Geofence)
    (hq : ST_Within q g.boundary = false) (hp : ST_Within p g.boundary = true)
    (hX : g.alert_on_exit = true) :
    violations_for_geofence u q (some p) g = [⟨u, g.id, "exit", q⟩] := by
  rw [violations_for_geofence]
  simp [hq, hp, hX]

theorem vfg_stay_inside (u : ℕ) (q p : Point) (g : Geofence)
    (hq : ST_Within q g.boundary = true) (hp : ST_Within p g.boundary = true) :
    violations_for_geofence u q (some p) g = [] := by
  rw [violations_for_geofence]
  simp [hq, hp]

theorem process_report_prev (g : Geofence) (st : CurrentLocations) (v : ℕ)
    (p : Point) (cl : CurrentLocation) (hcl : lookup_current st v = some cl) :
    process_report [g] st (mk_report v p) =
      (upsert_current st v (update_current_location (mk_report v p)),
       check_geofence_violations v p (some cl.position) [g]) := by
  rw [process_report]
  simp [mk_report, hcl]

theorem process_all_inside_then_exit (g : Geofence) (hact : g.is_active = true)
    (hX : g.alert_on_exit = true) (v : ℕ) (q : Point)
    (hq : ST_Within q g.boundary = false) :
    ∀ (mid : List Point) (st : CurrentLocations) (cl : CurrentLocation),
      lookup_current st v = some cl → ST_Within cl.position g.boundary = true →
      (∀ p ∈ mid, ST_Within p g.boundary = true) →
      (process_all [g] st (mid.map (mk_report v) ++ [mk_report v q])).2 =
        [⟨v, g.id, "exit", q⟩]
  | [], st, cl, hcl, hin, _ => by
    rw [List.map_nil, List.nil_append, process_all, process_all,
      process_report_prev g st v q cl hcl, check_singleton, if_pos hact,
      vfg_exit_case v q cl.position g hq hin hX]
    rfl
  | p :: mid, st, cl, hcl, hin, hmid => by
    have hp : ST_Within p g.boundary = true := hmid p (List.mem_cons_self p mid)
    have hstep : process_report [g] st (mk_report v p) =
        (upsert_current st v (update_current_location (mk_report v p)), []) := by
      rw [process_report_prev g st v p cl hcl, check_singleton, if_pos hact,
        vfg_stay_inside v p cl.position g hp hin]
    have hrec := process_all_inside_then_exit g hact hX v q hq mid
      (upsert_current st v (update_current_location (mk_report v p)))
      (update_current_location (mk_report v p))
      (lookup_upsert_self v (update_current_location (mk_report v p)) st)
      hp (fun r hr => hmid r (List.mem_cons_of_mem p hr))
    rw [List.map_cons, List.cons_append, process_all, hstep, hrec]
    rfl

/-- C2: processing, in order, a sequence of position reports for one
vehicle against one active geofence with both `alert_on_entry` and
`alert_on_exit` set — starting outside the boundary, then inside (any
number of consecutive strictly-inside reports), then outside again —
records exactly two alerts for that geofence: one 'entry' at the first
outside → inside crossing and one 'exit' at the inside → outside
crossing, and hence at most one alert per (vehicle, geofence,
transition-type) per discrete transition. -/
theorem geofence_crossing_exactly_two_alerts (g : Geofence) (v : ℕ)
    (p0 m q : Point) (rest : List Point) (hact : g.is_active = true)
    (hE : g.alert_on_entry = true) (hX : g.alert_on_exit = true)
    (h0 : ST_Within p0 g.boundary = false) (hm : ST_Within m g.boundary = true)
    (hrest : ∀ p ∈ rest, ST_Within p g.boundary = true)
    (hq : ST_Within q g.boundary = false) :
    (process_all [g] [] (((p0 :: m :: rest) ++ [q]).map (mk_report v))).2 =
      [⟨v, g.id, "entry", m⟩, ⟨v, g.id, "exit", q⟩] := by
  have hmap : ((p0 :: m :: rest) ++ [q]).map (mk_report v) =
      mk_report v p0 :: mk_report v m ::
        (rest.map (mk_report v) ++ [mk_report v q]) := by
    simp
  rw [hmap, process_all]
  have h1 : process_report [g] [] (mk_report v p0) =
      ([(v, update_current_location (mk_report v p0))], []) := by
    rw [process_report]
    simp [lookup_current, upsert_current, check_none, mk_report]
  rw [h1, process_all]
  have hl1 : lookup_current [(v, update_current_location (mk_report v p0))] v =
      some (update_current_location (mk_report v p0)) := by
    simp [lookup_current]
  have h2 : process_report [g] [(v, update_current_location (mk_report v p0))]
      (mk_report v m) =
      (upsert_current [(v, update_current_location (mk_report v p0))] v
        (update_current_location (mk_report v m)), [⟨v, g.id, "entry", m⟩]) := by
    rw [process_report_prev g _ v m _ hl1]
    have hpos : (update_current_location (mk_report v p0)).position = p0 := rfl
    rw [hpos, check_singleton, if_pos hact, vfg_entry_case v m p0 g hm h0 hE]
  rw [h2]
  have h3 := process_all_inside_then_exit g hact hX v q hq rest
    (upsert_current [(v, update_current_location (mk_report v p0))] v
      (update_current_location (mk_report v m)))
    (update_current_location (mk_report v m))
    (lookup_upsert_self v _ _) hm hrest
  rw [h3]
  rfl

set_option maxHeartbeats 1000000 in
theorem geofence_crossing_exactly_two_alerts_witness :
    (process_all [gIncl] []
      ((([⟨-1, 2⟩, ⟨1, 1⟩, ⟨2, 2⟩] : List Point) ++ ([⟨5, 1⟩] : List Point)).map (mk_report 3))).2 =
      [⟨3, 1, "entry", ⟨1, 1⟩⟩, ⟨3, 1, "exit", ⟨5, 1⟩⟩] :=
  geofence_crossing_exactly_two_alerts gIncl 3 (⟨-1, 2⟩ : Point) (⟨1, 1⟩ : Point)
    (⟨5, 1⟩ : Point) [(⟨2, 2⟩ : Point)]
    rfl rfl rfl (by with_unfolding_all rfl) (by with_unfolding_all rfl)
    (of_decide_eq_true (by with_unfolding_all rfl)) (by with_unfolding_all rfl)

end FleetTracker

namespace FleetTracker

theorem process_report_state (gs : List Geofence) (st : CurrentLocations)
    (row : LocationRow) :
    (process_report gs st row).1 =
      upsert_current st row.vehicle_id (update_current_location row) := rfl

theorem ingest_report_accepts (jitter : ℚ) (gs : List Geofence)
    (st : CurrentLocations) (row : LocationRow)
    (hco : is_valid_coordinates row.position.y row.position.x = true)
    (hts : ∀ cl, lookup_current st row.vehicle_id = some cl →
      cl.last_update - jitter ≤ row.recorded_at) :
    ingest_report jitter gs st row =
      ((process_report gs st row).1, (process_report gs st row).2, .accepted) := by
  have hv : validate_report jitter st row = .accepted := by
    rw [validate_report, hco]
    cases h : lookup_current st row.vehicle_id with
    | none => rfl
    | some cl => simp [not_lt.mpr (hts cl h)]
  rw [ingest_report, hv]

theorem ingest_all_tracks_last (jitter : ℚ) (gs : List Geofence)
    (hj : 0 ≤ jitter) (v : ℕ) :
    ∀ (rows : List LocationRow) (hne : rows ≠ []) (st : CurrentLocations),
      (∀ r ∈ rows, r.vehicle_id = v ∧
        is_valid_coordinates r.position.y r.position.x = true) →
      List.Chain' (fun a b => a.recorded_at < b.recorded_at) rows →
      (∀ cl, lookup_current st v = some cl →
        cl.last_update - jitter ≤ (rows.head hne).recorded_at) →
      (lookup_current (ingest_all jitter gs st rows).1 v).map (fun cl => cl.position) =
        some ((rows.getLast hne).position)
  | [], hne, _, _, _, _ => absurd rfl hne
  | [r], _, st, hall, _, hcompat => by
    have hr := hall r (List.mem_cons_self r [])
    have hstep := ingest_report_accepts jitter gs st r hr.2
      (fun cl hcl => hcompat cl (hr.1 ▸ hcl))
    rw [ingest_all, hstep]
    have : (ingest_all jitter gs (process_report gs st r).1 []) =
        ((process_report gs st r).1, []) := rfl
    rw [this]
    rw [process_report_state, hr.1, lookup_upsert_self]
    rfl
  | r :: r2 :: rows, _, st, hall, hchain, hcompat => by
    have hr := hall r (List.mem_cons_self r (r2 :: rows))
    have hstep := ingest_report_accepts jitter gs st r hr.2
      (fun cl hcl => hcompat cl (hr.1 ▸ hcl))
    rw [ingest_all, hstep]
    have hchain2 := List.chain'_cons.mp hchain
    have hrec := ingest_all_tracks_last jitter gs hj v (r2 :: rows)
      (List.cons_ne_nil r2 rows) (process_report gs st r).1
      (fun x hx => hall x (List.mem_cons_of_mem r hx)) hchain2.2 ?_
    · rw [List.getLast_cons (List.cons_ne_nil r2 rows)]
      exact hrec
    · intro cl hcl
      rw [process_report_state, hr.1, lookup_upsert_self] at hcl
      cases hcl
      have h1 : (update_current_location r).last_update = r.recorded_at := rfl
      rw [h1]
      calc r.recorded_at - jitter ≤ r.recorded_at := by linarith
        _ ≤ (List.head (r2 :: rows) (List.cons_ne_nil r2 rows)).recorded_at :=
          le_of_lt hchain2.1

/-- C4: a report whose `recordedAt` is strictly older than the
vehicle's last accepted update beyond the allowed backward jitter is
rejected as out of order and leaves the vehicle's current state
unchanged; and after ingesting any non-empty sequence of valid reports
for a vehicle in strictly increasing `recordedAt` order, the vehicle's
current position equals the position of the most recently accepted
report. -/
theorem stale_rejected_and_state_tracks_last (jitter : ℚ) (gs : List Geofence)
    (hj : 0 ≤ jitter) :
    (∀ (st : CurrentLocations) (row : LocationRow) (cl : CurrentLocation),
      lookup_current st row.vehicle_id = some cl →
      is_valid_coordinates row.position.y row.position.x = true →
      row.recorded_at < cl.last_update - jitter →
      ingest_report jitter gs st row = (st, [], .rejected "out_of_order")) ∧
    (∀ (v : ℕ) (rows : List LocationRow) (hne : rows ≠ []),
      (∀ r ∈ rows, r.vehicle_id = v ∧
        is_valid_coordinates r.position.y r.position.x = true) →
      List.Chain' (fun a b => a.recorded_at < b.recorded_at) rows →
      (lookup_current (ingest_all jitter gs [] rows).1 v).map (fun cl => cl.position) =
        some ((rows.getLast hne).position)) := by
  constructor
  · intro st row cl hcl hco hold
    have hv : validate_report jitter st row = .rejected "out_of_order" := by
      rw [validate_report, hco, hcl]
      simp [hold]
    rw [ingest_report, hv]
  · intro v rows hne hall hchain
    exact ingest_all_tracks_last jitter gs hj v rows hne [] hall hchain
      (fun cl hcl => by simp [lookup_current] at hcl)

theorem stale_rejected_and_state_tracks_last_witness :
    ingest_report 2 [] [(5, clW)] rowOld = ([(5, clW)], [], .rejected "out_of_order") ∧
    (lookup_current (ingest_all 2 [] [] [rowT1, rowT2]).1 5).map
      (fun cl => cl.position) = some rowT2.position := by
  have h := stale_rejected_and_state_tracks_last 2 [] (by norm_num)
  refine ⟨h.1 [(5, clW)] rowOld clW rfl (by with_unfolding_all rfl)
    (by with_unfolding_all decide), ?_⟩
  have hch : List.Chain' (fun a b => a.recorded_at < b.recorded_at) [rowT1, rowT2] :=
    List.chain'_cons.mpr ⟨of_decide_eq_true (by with_unfolding_all rfl),
      List.chain'_singleton rowT2⟩
  exact h.2 5 [rowT1, rowT2] (by simp)
    (of_decide_eq_true (by with_unfolding_all rfl)) hch

end FleetTracker

namespace FleetTracker

theorem sweep_fst (t n : ℚ) (st : CurrentLocations) :
    (mark_offline_sweep t n st).1 =
      st.map (fun e => if t < n - e.2.last_update then
        (e.1, { e.2 with is_online := false }) else e) := rfl

theorem sweep_snd (t n : ℚ) (st : CurrentLocations) :
    (mark_offline_sweep t n st).2 =
      st.filterMap (fun e => if e.2.is_online && decide (t < n - e.2.last_update) then
        some ⟨e.1, "device_offline"⟩ else none) := rfl

theorem lookup_of_mem (v : ℕ) (cl : CurrentLocation) :
    ∀ st : CurrentLocations, st.Pairwise (fun a b => a.1 ≠ b.1) →
      (v, cl) ∈ st → lookup_current st v = some cl
  | [], _, hmem => absurd hmem (List.not_mem_nil (v, cl))
  | e :: st, hids, hmem => by
    rw [List.pairwise_cons] at hids
    rcases List.mem_cons.mp hmem with rfl | hmem'
    · simp [lookup_current]
    · have he : e.1 ≠ v := hids.1 (v, cl) hmem'
      have ih := lookup_of_mem v cl st hids.2 hmem'
      simp [lookup_current, he] at ih ⊢
      exact ih

theorem mem_key_unique (v : ℕ) (cl : CurrentLocation) :
    ∀ st : CurrentLocations, st.Pairwise (fun a b => a.1 ≠ b.1) →
      (v, cl) ∈ st → ∀ e ∈ st, e.1 = v → e = (v, cl)
  | [], _, hmem, _, he, _ => absurd he (List.not_mem_nil _)
  | a :: st, hids, hmem, e, he, hkey => by
    rw [List.pairwise_cons] at hids
    rcases List.mem_cons.mp hmem with rfl | hmem'
    · rcases List.mem_cons.mp he with rfl | he'
      · rfl
      · exact absurd hkey (hids.1 e he').symm
    · rcases List.mem_cons.mp he with rfl | he'
      · exact absurd (hkey ▸ hids.1 (v, cl) hmem') (fun h => h rfl)
      · exact mem_key_unique v cl st hids.2 hmem' e he' hkey

theorem sweep_alerts_zero_of_offline (t n : ℚ) (v : ℕ) (st : CurrentLocations)
    (hoff : ∀ e ∈ st, e.1 = v → e.2.is_online = false) :
    (mark_offline_sweep t n st).2.countP (fun a => a.vehicle_id == v) = 0 := by
  rw [sweep_snd, List.countP_eq_zero]
  intro a ha
  obtain ⟨e, he, hfe⟩ := List.mem_filterMap.mp ha
  by_cases hcond : (e.2.is_online && decide (t < n - e.2.last_update)) = true
  · rw [if_pos hcond] at hfe
    cases hfe
    have hkey : e.1 ≠ v := by
      intro hk
      have := hoff e he hk
      rw [this] at hcond
      simp at hcond
    simp [hkey]
  · rw [if_neg hcond] at hfe
    cases hfe

theorem sweep_alerts_zero_of_not_key (t n : ℚ) (v : ℕ) (st : CurrentLocations)
    (hkeys : ∀ e ∈ st, e.1 ≠ v) :
    (mark_offline_sweep t n st).2.countP (fun a => a.vehicle_id == v) = 0 := by
  rw [sweep_snd, List.countP_eq_zero]
  intro a ha
  obtain ⟨e, he, hfe⟩ := List.mem_filterMap.mp ha
  by_cases hcond : (e.2.is_online && decide (t < n - e.2.last_update)) = true
  · rw [if_pos hcond] at hfe
    cases hfe
    simp [hkeys e he]
  · rw [if_neg hcond] at hfe
    cases hfe

theorem sweep_alerts_one (t n : ℚ) (v : ℕ) (cl : CurrentLocation)
    (hon : cl.is_online = true) (hstale : t < n - cl.last_update) :
    ∀ st : CurrentLocations, st.Pairwise (fun a b => a.1 ≠ b.1) → (v, cl) ∈ st →
      (mark_offline_sweep t n st).2.countP (fun a => a.vehicle_id == v) = 1
  | [], _, hmem => absurd hmem (List.not_mem_nil _)
  | e :: st, hids, hmem => by
    rw [List.pairwise_cons] at hids
    rw [sweep_snd, List.filterMap_cons]
    rcases List.mem_cons.mp hmem with rfl | hmem'
    · rw [if_pos (by simp [hon, hstale]), List.countP_cons]
      have h0 := sweep_alerts_zero_of_not_key t n v st
        (fun x hx => (hids.1 x hx).symm)
      rw [sweep_snd] at h0
      rw [h0]
      simp
    · have he : e.1 ≠ v := hids.1 (v, cl) hmem'
      have ih := sweep_alerts_one t n v cl hon hstale st hids.2 hmem'
      rw [sweep_snd] at ih
      by_cases hcond : (e.2.is_online && decide (t < n - e.2.last_update)) = true
      · rw [if_pos hcond, List.countP_cons]
        rw [ih]
        simp [he]
      · rw [if_neg hcond]
        exact ih

end FleetTracker

namespace FleetTracker

theorem lookup_sweep_of_mem (t n : ℚ) (v : ℕ) (cl : CurrentLocation)
    (hstale : t < n - cl.last_update) :
    ∀ st : CurrentLocations, st.Pairwise (fun a b => a.1 ≠ b.1) → (v, cl) ∈ st →
      lookup_current (mark_offline_sweep t n st).1 v =
        some { cl with is_online := false }
  | [], _, hmem => absurd hmem (List.not_mem_nil _)
  | e :: st, hids, hmem => by
    rw [List.pairwise_cons] at hids
    rw [sweep_fst, List.map_cons]
    rcases List.mem_cons.mp hmem with rfl | hmem'
    · rw [if_pos hstale]
      simp [lookup_current]
    · have he : e.1 ≠ v := hids.1 (v, cl) hmem'
      have ih := lookup_sweep_of_mem t n v cl hstale st hids.2 hmem'
      rw [sweep_fst] at ih
      by_cases hc : t < n - e.2.last_update
      · rw [if_pos hc]
        simp only [lookup_current] at ih ⊢
        rw [List.find?_cons_of_neg _ (by simp [he])]
        exact ih
      · rw [if_neg hc]
        simp only [lookup_current] at ih ⊢
        rw [List.find?_cons_of_neg _ (by simp [he])]
        exact ih

/-- C7 (spec-modelled): the periodic offline sweep sets `is_online` to
false for every vehicle whose last update is older than the threshold
and emits exactly one `device_offline` alert for that vehicle's
online → offline transition; any further sweep over the resulting
state emits no second alert for that vehicle. -/
theorem offline_sweep_exactly_once (threshold now : ℚ) (st : CurrentLocations)
    (v : ℕ) (cl : CurrentLocation)
    (hids : st.Pairwise (fun a b => a.1 ≠ b.1)) (hmem : (v, cl) ∈ st)
    (hon : cl.is_online = true) (hstale : threshold < now - cl.last_update) :
    lookup_current (mark_offline_sweep threshold now st).1 v =
      some { cl with is_online := false } ∧
    (mark_offline_sweep threshold now st).2.countP
      (fun a => a.vehicle_id == v) = 1 ∧
    ∀ now2 : ℚ, (mark_offline_sweep threshold now2
        (mark_offline_sweep threshold now st).1).2.countP
      (fun a => a.vehicle_id == v) = 0 := by
  refine ⟨lookup_sweep_of_mem threshold now v cl hstale st hids hmem,
    sweep_alerts_one threshold now v cl hon hstale st hids hmem,
    fun now2 => sweep_alerts_zero_of_offline threshold now2 v _ ?_⟩
  intro e he hkey
  rw [sweep_fst] at he
  obtain ⟨a, ha, hfa⟩ := List.mem_map.mp he
  by_cases hc : threshold < now - a.2.last_update
  · rw [if_pos hc] at hfa
    cases hfa
    rfl
  · rw [if_neg hc] at hfa
    subst hfa
    have hacl := mem_key_unique v cl st hids hmem a ha hkey
    rw [hacl] at hc
    exact absurd hstale hc

theorem offline_sweep_exactly_once_witness :
    lookup_current (mark_offline_sweep 300 1000 [(1, clW)]).1 1 =
      some { clW with is_online := false } ∧
    (mark_offline_sweep 300 1000 [(1, clW)]).2.countP
      (fun a => a.vehicle_id == 1) = 1 ∧
    (mark_offline_sweep 300 2000 (mark_offline_sweep 300 1000 [(1, clW)]).1).2.countP
      (fun a => a.vehicle_id == 1) = 0 := by
  have h := offline_sweep_exactly_once 300 1000 [(1, clW)] 1 clW
    (List.pairwise_singleton _ _) (List.mem_singleton.mpr rfl) rfl
    (of_decide_eq_true (by with_unfolding_all rfl))
  exact ⟨h.1, h.2.1, h.2.2 2000⟩

end FleetTracker
